import Mathlib

/-
Verification of the parastack dispatch core (src/parastack).

The development shallowly embeds the modules the claims are about:

  * parastack/utils.py      : the wait combinator (`_wait`, `_cond_matches`)
  * parastack/emitter.py    : `Emitter`, `_ForkedEmitter`, the `Joined` family
  * parastack/dispatcher.py : handler normalization (`_FuncNormalizedHandler`,
    `_GenNormalizedHandler`, `_MultiHandler`), the `Dispatcher` routing table,
    `fork`, the deallocation finalizer and `__exit__` (close).

Python exceptions are modelled by the `Exc` type and fallible operations
return `Option Exc` (the raised exception, if any).  Generator based handlers
are modelled as explicit state machines (`GenProg`): `sendFn` gives the
result of `generator.send(event)` from a suspension state, `throwFn` the
result of `generator.throw(exc)`, and `boot` the result of the initial
`next(...)` rewind.  Python `assert` statements raise `Exc.assertionError`.
CPython raises RuntimeError when a dict changes size while being iterated;
the model of `Dispatcher.__exit__` reproduces that check.
-/

namespace Parastack

/-- The `Joined` exception/event family of dispatcher.py: `Joined` itself plus
its subclasses `HandlerDone`, `HandlerFailed`, `EmitterDeallocated`,
`DispatcherClosed`. -/
inductive JoinKind where
  | joined
  | handlerDone
  | handlerFailed
  | emitterDeallocated
  | dispatcherClosed
deriving DecidableEq

/-- Python exceptions relevant to the core.  `joinedExc k c` is an instance of
the `Joined` family with kind `k` and `__cause__` modelled as an optional
numeric tag `c`.  `otherExc t` is an arbitrary application exception. -/
inductive Exc where
  | joinedExc (k : JoinKind) (cause : Option Nat)
  | assertionError
  | runtimeError
  | valueError
  | stopIteration
  | otherExc (tag : Nat)
deriving DecidableEq

/-- `isinstance(e, Joined)`. -/
def Exc.isJoined : Exc → Bool
  | .joinedExc _ _ => true
  | _ => false

/-- A numeric tag used when an exception becomes the `__cause__` of another
(`raise HandlerFailed() from e`). -/
def Exc.code : Exc → Nat
  | .joinedExc _ _ => 1
  | .assertionError => 2
  | .runtimeError => 3
  | .valueError => 4
  | .stopIteration => 5
  | .otherExc t => 100 + t

/-- Event values flowing through the dispatcher: plain application events,
`Forked` values carrying the id of the new child emitter, and instances of
the `Joined` signal family (which are both events and exceptions). -/
inductive Event where
  | app (tag : Nat)
  | forkedEv (childId : Nat)
  | sig (k : JoinKind) (cause : Option Nat)
deriving DecidableEq

/-- `isinstance(event, Joined)`. -/
def Event.isJoinedEvent : Event → Bool
  | .sig _ _ => true
  | _ => false

/-- `isinstance(event, DispatcherClosed)`. -/
def Event.isDispatcherClosed : Event → Bool
  | .sig .dispatcherClosed _ => true
  | _ => false

/-- View a `Joined` event as the exception it is (used by
`handler.throw(event)`); arbitrary for non signal events, which are never
thrown by the code. -/
def Event.toExc : Event → Exc
  | .sig k c => .joinedExc k c
  | .app t => .otherExc t
  | .forkedEv c => .otherExc c

/-! ## Wait combinator (parastack/utils.py) -/

/-- An event class, as used in the type collections accepted by
`_cond_matches` via `isinstance(event, tuple(cond))`. -/
inductive EvShape where
  | appShape (tag : Nat)
  | sigShape (k : JoinKind)
  | forkedShape
deriving DecidableEq

/-- Subclass test inside the `Joined` family: every kind is a subclass of
plain `Joined`, and otherwise classes are unrelated. -/
def JoinKind.isSubOf (k p : JoinKind) : Bool :=
  k == p || p == .joined

/-- `isinstance(event, shape)`. -/
def shapeMatches : EvShape → Event → Bool
  | .appShape t, .app u => t == u
  | .sigShape p, .sig k _ => k.isSubOf p
  | .forkedShape, .forkedEv _ => true
  | _, _ => false

/-- A `_Cond`: either a callable predicate or a collection of event classes. -/
inductive Cond where
  | pred (f : Event → Bool)
  | shapes (ts : List EvShape)

/-- `_cond_matches(cond, event)`: a callable matches when it returns true, a
collection matches by `isinstance` against any of its classes. -/
def condMatches : Cond → Event → Bool
  | .pred f, e => f e
  | .shapes ts, e => ts.any (fun t => shapeMatches t e)

/-- `_never` default for `cancel_if`. -/
def condNever : Cond := .pred (fun _ => false)

/-- `_any` default for `until`. -/
def condAny : Cond := .pred (fun _ => true)

/-- Outcome of running the `_wait` generator over a finite event sequence:
still suspended, failed with `WaitCancelled(e)`, or returned `e`. -/
inductive WaitOutcome where
  | pending
  | cancelled (e : Event)
  | completed (e : Event)
deriving DecidableEq

/-- The `_wait` loop: each received event is first passed to `through`; when
the result differs from the event the loop continues; otherwise `cancel_if`
is tested (raising `WaitCancelled(event)`) and then `until` (returning the
event). -/
def waitRun (u c : Cond) (through : Event → Option Event) : List Event → WaitOutcome
  | [] => .pending
  | e :: rest =>
    if through e ≠ some e then waitRun u c through rest
    else if condMatches c e then .cancelled e
    else if condMatches u e then .completed e
    else waitRun u c through rest

/-- `_passthrough` default for `through`. -/
def passthrough : Event → Option Event := fun e => some e

/-- `wait(until, cancel_if)` over a finite event sequence. -/
def wait (u c : Cond) (evs : List Event) : WaitOutcome := waitRun u c passthrough evs

/-- `wait_through(f)(until, cancel_if)` over a finite event sequence. -/
def waitThrough (f : Event → Option Event) (u c : Cond) (evs : List Event) : WaitOutcome :=
  waitRun u c f evs

/-- Specification side description of which event settles a wait: the first
event surviving the filter that matches either condition. -/
def waitDecider (u c : Cond) (through : Event → Option Event) (e : Event) : Bool :=
  decide (through e = some e) && (condMatches c e || condMatches u e)

/-! ## Emitters (parastack/emitter.py) -/

/-- An emitter: plain `Emitter` objects have no `_parent` attribute, while
`_ForkedEmitter` stores its parent.  The id is the `id()` identity token. -/
inductive Emitter where
  | root (eid : Nat)
  | forkedE (eid : Nat) (parent : Emitter)
deriving DecidableEq

/-- `id(emitter)`. -/
def Emitter.eid : Emitter → Nat
  | .root i => i
  | .forkedE i _ => i

/-- `_emitters_ids_chain_iter`: yield the id of the emitter, then follow
`_parent` links while the parent is an `Emitter`. -/
def chainIds : Emitter → List Nat
  | .root i => [i]
  | .forkedE i p => i :: chainIds p

/-- The ancestor chain itself, starting at the emitter. -/
def ancestors : Emitter → List Emitter
  | .root i => [.root i]
  | .forkedE i p => .forkedE i p :: ancestors p

/-- Whether an emitter has no `_parent` attribute. -/
def Emitter.isRootE : Emitter → Bool
  | .root _ => true
  | .forkedE _ _ => false

/-! ## Logging collaborator -/

/-- Log levels of the leveled logger methods used by dispatcher.py. -/
inductive LogLevel where
  | debugL
  | warningL
  | errorL
deriving DecidableEq

/-- The individual log call sites of dispatcher.py. -/
inductive LogMsg where
  | ignoringFuncExc
  | alteredJoin
  | respondedWithExc
  | swallowedJoin
  | cleanedUp (eid : Nat)
  | deallocatedNote (eid : Nat)
  | rootFailed
deriving DecidableEq

/-- One emitted log record. -/
abbrev LogEntry := LogLevel × LogMsg

/-! ## Handler normalization (dispatcher.py)

A generator step result: `generator.send`/`generator.throw` either suspends
again at a yield, returns (raising StopIteration at the caller), or raises. -/

inductive GenStep where
  | yieldSt (s : Nat)
  | retSt
  | raiseSt (e : Exc)

/-- A user supplied generator handler as a state machine over `Nat`
suspension states.  `boot` is the result of the initial `next(...)`. -/
structure GenProg where
  boot : GenStep
  sendFn : Nat → Event → GenStep
  throwFn : Nat → Exc → GenStep

/-- `_GenNormalizedHandler` runtime state: the program, the current
suspension state, whether the generator is GEN_CLOSED, and the (ghost) list
of events the generator has been resumed with. -/
structure GenH where
  prog : GenProg
  state : Nat
  closed : Bool
  seen : List Event

/-- `_FuncNormalizedHandler` runtime state: the wrapped function (given the
events seen so far and the current event, it may raise), the (ghost) list of
events it has been invoked with, and the done flag. -/
structure FuncH where
  body : List Event → Event → Option Exc
  seen : List Event
  fdone : Bool

/-- `_FuncNormalizedHandler.send`: assert not done; call the function; a
raised `HandlerDone` marks the handler done and propagates; any other raised
exception is swallowed and logged at debug level. -/
def FuncH.send (f : FuncH) (ev : Event) : FuncH × Option Exc × List LogEntry :=
  if f.fdone then (f, some .assertionError, [])
  else
    match f.body f.seen ev with
    | none => ({ f with seen := f.seen ++ [ev] }, none, [])
    | some (.joinedExc .handlerDone c) =>
        ({ f with seen := f.seen ++ [ev], fdone := true },
         some (.joinedExc .handlerDone c), [])
    | some _ => ({ f with seen := f.seen ++ [ev] }, none, [(.debugL, .ignoringFuncExc)])

/-- `_FuncNormalizedHandler.throw`: assert not done; mark done; re-raise. -/
def FuncH.throw (f : FuncH) (exc : Exc) : FuncH × Exc × List LogEntry :=
  if f.fdone then (f, .assertionError, [])
  else ({ f with fdone := true }, exc, [])

/-- `_GenNormalizedHandler.send`: assert not done; resume the generator;
StopIteration becomes `HandlerDone`, a raised `Joined` re-raises, any other
exception becomes `HandlerFailed` with that exception as cause. -/
def GenH.send (g : GenH) (ev : Event) : GenH × Option Exc × List LogEntry :=
  if g.closed then (g, some .assertionError, [])
  else
    match g.prog.sendFn g.state ev with
    | .yieldSt s => ({ g with state := s, seen := g.seen ++ [ev] }, none, [])
    | .retSt =>
        ({ g with closed := true, seen := g.seen ++ [ev] },
         some (.joinedExc .handlerDone none), [])
    | .raiseSt e =>
        if e.isJoined then ({ g with closed := true, seen := g.seen ++ [ev] }, some e, [])
        else ({ g with closed := true, seen := g.seen ++ [ev] },
              some (.joinedExc .handlerFailed (some e.code)), [])

/-- `_GenNormalizedHandler.throw`: assert not done; throw into the generator;
StopIteration re-raises the original signal, a raised `Joined` propagates
(logged at debug when altered), another exception becomes `HandlerFailed`
(logged at debug), and a yield means the signal was swallowed, which is
logged at debug and the original signal re-raised. -/
def GenH.throw (g : GenH) (exc : Exc) : GenH × Exc × List LogEntry :=
  if g.closed then (g, .assertionError, [])
  else
    match g.prog.throwFn g.state exc with
    | .retSt => ({ g with closed := true }, exc, [])
    | .raiseSt e =>
        if e.isJoined then
          ({ g with closed := true }, e,
           if e = exc then [] else [(.debugL, .alteredJoin)])
        else ({ g with closed := true }, .joinedExc .handlerFailed (some e.code),
              [(.debugL, .respondedWithExc)])
    | .yieldSt s => ({ g with state := s }, exc, [(.debugL, .swallowedJoin)])

/-- A normalized single handler: function based or generator based. -/
inductive SH where
  | funcH (f : FuncH)
  | genH (g : GenH)

/-- The `done` property of a single normalized handler. -/
def SH.done : SH → Bool
  | .funcH f => f.fdone
  | .genH g => g.closed

/-- The events a single handler has observed (ghost). -/
def SH.seen : SH → List Event
  | .funcH f => f.seen
  | .genH g => g.seen

def SH.send : SH → Event → SH × Option Exc × List LogEntry
  | .funcH f, ev => let r := f.send ev; (.funcH r.1, r.2.1, r.2.2)
  | .genH g, ev => let r := g.send ev; (.genH r.1, r.2.1, r.2.2)

def SH.throw : SH → Exc → SH × Exc × List LogEntry
  | .funcH f, exc => let r := f.throw exc; (.funcH r.1, r.2.1, r.2.2)
  | .genH g, exc => let r := g.throw exc; (.genH r.1, r.2.1, r.2.2)

/-- A normalized handler: a single handler or a `_MultiHandler` over the
normalized members. -/
inductive NH where
  | single (h : SH)
  | multi (ms : List SH)

/-- `done`: a multi handler is done when all members are done. -/
def NH.done : NH → Bool
  | .single h => h.done
  | .multi ms => ms.all SH.done

/-- The `_MultiHandler.send` loop body: offer the event to each member in
order, suppressing `Joined`; an exception outside the `Joined` family is not
suppressed and aborts the loop. -/
def multiSendLoop (ev : Event) : List SH → List SH × Option Exc × List LogEntry
  | [] => ([], none, [])
  | m :: rest =>
    let r := m.send ev
    match r.2.1 with
    | none =>
      let t := multiSendLoop ev rest
      (r.1 :: t.1, t.2.1, r.2.2 ++ t.2.2)
    | some e =>
      if e.isJoined then
        let t := multiSendLoop ev rest
        (r.1 :: t.1, t.2.1, r.2.2 ++ t.2.2)
      else (r.1 :: rest, some e, r.2.2)

/-- The `_MultiHandler.throw` loop body: offer the signal to each member,
suppressing `Joined`; any other exception aborts the loop. -/
def multiThrowLoop (exc : Exc) : List SH → List SH × Option Exc × List LogEntry
  | [] => ([], none, [])
  | m :: rest =>
    let r := m.throw exc
    if r.2.1.isJoined then
      let t := multiThrowLoop exc rest
      (r.1 :: t.1, t.2.1, r.2.2 ++ t.2.2)
    else (r.1 :: rest, some r.2.1, r.2.2)

def NH.send : NH → Event → NH × Option Exc × List LogEntry
  | .single h, ev => let r := h.send ev; (.single r.1, r.2.1, r.2.2)
  | .multi ms, ev =>
    if ms.all SH.done then (.multi ms, some .assertionError, [])
    else
      let r := multiSendLoop ev ms
      match r.2.1 with
      | some e => (.multi r.1, some e, r.2.2)
      | none =>
        if r.1.all SH.done then (.multi r.1, some (.joinedExc .handlerDone none), r.2.2)
        else (.multi r.1, none, r.2.2)

def NH.throw : NH → Exc → NH × Exc × List LogEntry
  | .single h, exc => let r := h.throw exc; (.single r.1, r.2.1, r.2.2)
  | .multi ms, exc =>
    if ms.all SH.done then (.multi ms, .assertionError, [])
    else
      let r := multiThrowLoop exc ms
      match r.2.1 with
      | some e => (.multi r.1, e, r.2.2)
      | none => (.multi r.1, exc, r.2.2)

/-- A raw handler as supplied by the user to `Dispatcher`/`fork`. -/
inductive RawH where
  | funcRaw (body : List Event → Event → Option Exc)
  | genRaw (prog : GenProg)

/-- Normalization of one raw handler.  For a generator, the constructor of
`_GenNormalizedHandler` bootstraps it to the first yield with `next(...)`;
returning immediately raises StopIteration and a raised exception
propagates, so normalization fails. -/
def normalizeSingle : RawH → Except Exc SH
  | .funcRaw b => .ok (.funcH { body := b, seen := [], fdone := false })
  | .genRaw p =>
    match p.boot with
    | .yieldSt s => .ok (.genH { prog := p, state := s, closed := false, seen := [] })
    | .retSt => .error .stopIteration
    | .raiseSt e => .error e

def normalizeMembers : List RawH → Except Exc (List SH)
  | [] => .ok []
  | r :: rest => do
    let m ← normalizeSingle r
    let ms ← normalizeMembers rest
    return m :: ms

/-- `_normalize_handlers`: zero handlers is a ValueError, one is normalized
alone, several become a `_MultiHandler`. -/
def normalizeHandlers : List RawH → Except Exc NH
  | [] => .error .valueError
  | [r] => (normalizeSingle r).map NH.single
  | rs => (normalizeMembers rs).map NH.multi

/-! ## Dispatcher (dispatcher.py) -/

/-- Association list lookup for the registration table (insertion ordered,
like a Python dict). -/
def tblGet (t : List (Nat × NH)) (k : Nat) : Option NH :=
  match t with
  | [] => none
  | (i, h) :: rest => if i = k then some h else tblGet rest k

/-- `del table[k]`. -/
def eraseKey (t : List (Nat × NH)) (k : Nat) : List (Nat × NH) :=
  t.filter (fun p => !(p.1 == k))

/-- Write back the mutated handler object under its key. -/
def setKey (t : List (Nat × NH)) (k : Nat) (h : NH) : List (Nat × NH) :=
  t.map (fun p => if p.1 == k then (k, h) else p)

/-- Dispatcher state.  `table` is `__eid_to_handler`, `fins` the set of
emitter ids whose `weakref.finalize` hook is attached and not yet fired or
detached, `logs` the injected logger output.  `sent`, `deliveries` and
`termDelivered` are ghost observation logs: every `__call__` records the
sender id and event in `sent`; every handler wrapper invocation records its
target in `deliveries` (`none` is the root handler); `termDelivered` records
the registration key each time a termination signal is delivered into a
registration (a `Joined` family event whose sender id equals the key, or the
deallocation finalizer throw). -/
structure Disp where
  root : NH
  table : List (Nat × NH)
  fins : List Nat
  logs : List LogEntry
  sent : List (Nat × Event)
  deliveries : List (Option Nat × Event)
  termDelivered : List Nat

/-- `Dispatcher.fork.cleanup`: detach the finalizer, delete the registration,
log at debug. -/
def Disp.cleanup (d : Disp) (eid : Nat) : Disp :=
  { d with fins := d.fins.filter (fun i => !(i == eid)),
           table := eraseKey d.table eid,
           logs := d.logs ++ [(.debugL, .cleanedUp eid)] }

/-- `Dispatcher.fork.handler_wrapper`: deliver via `send`; when the event is
a `Joined` whose sender id is this registration key and `send` returned
normally, force termination with `throw`; any `Joined` escaping either call
triggers `cleanup`; an exception outside the `Joined` family propagates to
the caller. -/
def Disp.handlerWrapper (d : Disp) (eid : Nat) (h : NH) (senderEid : Nat) (ev : Event) :
    Disp × Option Exc :=
  let isTerm := ev.isJoinedEvent && decide (senderEid = eid)
  let d1 : Disp :=
    { d with deliveries := d.deliveries ++ [(some eid, ev)],
             termDelivered := if isTerm then d.termDelivered ++ [eid] else d.termDelivered }
  let s := h.send ev
  let d2 : Disp := { d1 with logs := d1.logs ++ s.2.2 }
  match s.2.1 with
  | some e =>
    if e.isJoined then (d2.cleanup eid, none)
    else ({ d2 with table := setKey d2.table eid s.1 }, some e)
  | none =>
    if isTerm then
      let t := s.1.throw ev.toExc
      let d3 : Disp := { d2 with logs := d2.logs ++ t.2.2 }
      if t.2.1.isJoined then (d3.cleanup eid, none)
      else ({ d3 with table := setKey d3.table eid t.1 }, some t.2.1)
    else ({ d2 with table := setKey d2.table eid s.1 }, none)

/-- `Dispatcher.__init__.root_handler_wrapper`: deliver via `send` (and, for
a `DispatcherClosed` event, also `throw`); `DispatcherClosed` escaping is
passed over and any other exception is logged at debug — nothing ever
propagates to the caller. -/
def Disp.rootWrapper (d : Disp) (ev : Event) : Disp :=
  let d1 : Disp := { d with deliveries := d.deliveries ++ [(none, ev)] }
  let s := d1.root.send ev
  let d2 : Disp := { d1 with root := s.1, logs := d1.logs ++ s.2.2 }
  match s.2.1 with
  | some e =>
    match e with
    | .joinedExc .dispatcherClosed _ => d2
    | _ => { d2 with logs := d2.logs ++ [(.debugL, .rootFailed)] }
  | none =>
    if ev.isDispatcherClosed then
      let t := s.1.throw ev.toExc
      let d3 : Disp := { d2 with root := t.1, logs := d2.logs ++ t.2.2 }
      match t.2.1 with
      | .joinedExc .dispatcherClosed _ => d3
      | _ => { d3 with logs := d3.logs ++ [(.debugL, .rootFailed)] }
    else d2

/-- `Dispatcher.__call__.find_handler`: the first id along the ancestor chain
with a live registration. -/
def firstReg : List Nat → List (Nat × NH) → Option Nat
  | [], _ => none
  | i :: rest, t => if (tblGet t i).isSome then some i else firstReg rest t

/-- `Dispatcher.__call__`: route the event to the registration of the first
ancestor id found, or to the root handler. -/
def Disp.call (d : Disp) (em : Emitter) (ev : Event) : Disp × Option Exc :=
  let d1 : Disp := { d with sent := d.sent ++ [(em.eid, ev)] }
  match firstReg (chainIds em) d1.table with
  | some eid =>
    match tblGet d1.table eid with
    | some h => d1.handlerWrapper eid h em.eid ev
    | none => (d1, none)
  | none => (d1.rootWrapper ev, none)

/-- `Dispatcher.fork`: assert the id is free, normalize the handlers (a
bootstrap failure propagates with nothing installed), then attach the
deallocation finalizer and insert the registration. -/
def Disp.fork (d : Disp) (childId : Nat) (raws : List RawH) : Disp × Option Exc :=
  if (tblGet d.table childId).isSome then (d, some .assertionError)
  else
    match normalizeHandlers raws with
    | .error e => (d, some e)
    | .ok h =>
      ({ d with table := d.table ++ [(childId, h)], fins := d.fins ++ [childId] }, none)

/-- `Dispatcher.fork.on_deallocated`: when the finalizer is still attached it
fires exactly once; it logs, throws `EmitterDeallocated` into the handler
suppressing `Joined`, then cleans up.  An exception outside the `Joined`
family escapes before `cleanup` runs. -/
def Disp.dealloc (d : Disp) (eid : Nat) : Disp × Option Exc :=
  if d.fins.contains eid then
    let d1 : Disp :=
      { d with fins := d.fins.filter (fun i => !(i == eid)),
               logs := d.logs ++ [(.debugL, .deallocatedNote eid)] }
    match tblGet d1.table eid with
    | some h =>
      let d2 : Disp := { d1 with termDelivered := d1.termDelivered ++ [eid] }
      let t := h.throw (.joinedExc .emitterDeallocated none)
      let d3 : Disp := { d2 with logs := d2.logs ++ t.2.2 }
      if t.2.1.isJoined then
        ({ d3 with table := eraseKey d3.table eid,
                   logs := d3.logs ++ [(.debugL, .cleanedUp eid)] }, none)
      else ({ d3 with table := setKey d3.table eid t.1 }, some t.2.1)
    | none => (d1, none)
  else (d, none)

/-- The loop of `Dispatcher.__exit__`: iterate
`chain(table.items(), ((0, root),))` delivering `DispatcherClosed` with
`Joined` suppressed per item.  CPython dict iterators compare the size at
every `next` call against the size at iterator creation and raise
RuntimeError when it changed, including on the exhausting call; `size0` is
the size at creation and `pos` the iterator position. -/
def Disp.closeLoop (cause : Option Nat) (size0 : Nat) :
    Nat → Nat → Disp → Disp × Option Exc
  | 0, _, d => (d, none)
  | fuel + 1, pos, d =>
    if d.table.length ≠ size0 then (d, some .runtimeError)
    else
      match (d.table.drop pos).head? with
      | none => (d.rootWrapper (.sig .dispatcherClosed cause), none)
      | some (eid, h) =>
        let r := d.handlerWrapper eid h eid (.sig .dispatcherClosed cause)
        match r.2 with
        | some e =>
          if e.isJoined then Disp.closeLoop cause size0 fuel (pos + 1) r.1
          else (r.1, some e)
        | none => Disp.closeLoop cause size0 fuel (pos + 1) r.1

/-- `Dispatcher.__exit__`: deliver `DispatcherClosed` (carrying the pending
exception as cause, if any) over the table items and then the root handler. -/
def Disp.close (d : Disp) (cause : Option Nat) : Disp × Option Exc :=
  Disp.closeLoop cause d.table.length (d.table.length + 1) 0 d

/-- The operations driving a dispatcher from outside. -/
inductive Step where
  | sendS (em : Emitter) (ev : Event)
  | forkS (childId : Nat) (raws : List RawH)
  | deallocS (eid : Nat)
  | closeS (cause : Option Nat)

def Disp.step (d : Disp) (s : Step) : Disp × Option Exc :=
  match s with
  | .sendS em ev => d.call em ev
  | .forkS c raws => d.fork c raws
  | .deallocS eid => d.dealloc eid
  | .closeS cause => d.close cause

def Disp.run (d : Disp) : List Step → Disp
  | [] => d
  | s :: rest => ((d.step s).1).run rest

/-- A fresh dispatcher with the given normalized root handler. -/
def initDisp (root : NH) : Disp :=
  { root := root, table := [], fins := [], logs := [],
    sent := [], deliveries := [], termDelivered := [] }

/-! ## Scoped use of a forked emitter (emitter.py) -/

/-- The `Joined` event built by `_ForkedEmitter.__exit__`: its cause is the
exception escaping the scope, if any. -/
def joinExitEvent (bodyErr : Option Nat) : Event := .sig .joined bodyErr

/-- The with statement form of a forked emitter scope: run the body (a list
of dispatcher operations plus an optional escaping error), then `__exit__`
sends exactly one `Joined` through the child itself on every exit path. -/
def scopedUse (d : Disp) (child : Emitter) (acts : List Step) (bodyErr : Option Nat) :
    Disp × Option Nat :=
  let d1 := d.run acts
  (((d1.call child (joinExitEvent bodyErr)).1), bodyErr)

/-- The synchronous path of `_ForkedEmitter.__call__`: on an escaping error
run `__exit__` with the exception info then re-raise; on a normal result run
`__exit__` with no exception and return. -/
def forkedCallSync (d : Disp) (child : Emitter) (acts : List Step) (bodyErr : Option Nat) :
    Disp × Option Nat :=
  match bodyErr with
  | some e => ((((d.run acts).call child (.sig .joined (some e))).1), some e)
  | none => ((((d.run acts).call child (.sig .joined none)).1), none)

/-! ## Derived observation helpers -/

/-- Either no exception, or an exception of the `Joined` family. -/
def optJoined : Option Exc → Bool
  | none => true
  | some e => e.isJoined

/-- A registration holding a single handler that is not done. -/
def NH.singleLive : NH → Bool
  | .single h => !h.done
  | .multi _ => false

/-- The observation logs of the members of a compound registration. -/
def memberSeens (d : Disp) (eid : Nat) : List (List Event) :=
  match tblGet d.table eid with
  | some (.multi ms) => ms.map SH.seen
  | _ => []

/-! ## Concrete fixtures -/

/-- A handler function that never raises. -/
def benignBody : List Event → Event → Option Exc := fun _ _ => none

/-- A handler function that raises an ordinary exception on every event. -/
def raisingBody : List Event → Event → Option Exc := fun _ _ => some (.otherExc 5)

/-- A generator handler that completes (returns) on the first event. -/
def genDoneOnFirst : GenProg :=
  { boot := .yieldSt 0, sendFn := fun _ _ => .retSt, throwFn := fun _ e => .raiseSt e }

/-- A generator handler that keeps waiting forever and does not catch thrown
signals. -/
def genWaits : GenProg :=
  { boot := .yieldSt 0, sendFn := fun s _ => .yieldSt s, throwFn := fun _ e => .raiseSt e }

/-- A generator handler that swallows every thrown signal and keeps
yielding. -/
def genSwallowJoin : GenProg :=
  { boot := .yieldSt 0, sendFn := fun s _ => .yieldSt s, throwFn := fun s _ => .yieldSt s }

/-- A generator handler whose bootstrap to the first yield raises. -/
def genBadBoot : GenProg :=
  { boot := .raiseSt (.otherExc 3), sendFn := fun s _ => .yieldSt s,
    throwFn := fun _ e => .raiseSt e }

/-- A generator handler that raises an ordinary exception on every event. -/
def genRaisesProg : GenProg :=
  { boot := .yieldSt 0, sendFn := fun _ _ => .raiseSt (.otherExc 5),
    throwFn := fun _ e => .raiseSt e }

/-- A benign normalized function root handler. -/
def rootNH : NH := .single (.funcH { body := benignBody, seen := [], fdone := false })

/-- A normalized function root handler that raises on every event. -/
def rootRaises : NH := .single (.funcH { body := raisingBody, seen := [], fdone := false })

/-- A normalized generator root handler that raises on every event. -/
def rootGenRaises : NH :=
  .single (.genH { prog := genRaisesProg, state := 0, closed := false, seen := [] })

/-- A root emitter with identity 1 and a child forked from it with
identity 2. -/
def em1 : Emitter := .root 1

def em2 : Emitter := .forkedE 2 em1

/-- The normalized form of a fresh `genSwallowJoin` registration. -/
def c8handler : NH :=
  .single (.genH { prog := genSwallowJoin, state := 0, closed := false, seen := [] })

/-- Fixture for C8: a dispatcher holding the swallowing generator handler
registered for emitter 2. -/
def c8base : Disp := (initDisp rootNH).run [.forkS 2 [.genRaw genSwallowJoin]]

/-- Fixture for C2: register a compound handler for emitter 2 whose first
member completes on the first event, send one application event, then the
`Joined` of emitter 2 itself. -/
def c2Trace : List Step :=
  [ .forkS 2 [.genRaw genDoneOnFirst, .genRaw genWaits],
    .sendS em2 (.app 7),
    .sendS em2 (.sig .joined none) ]

def c2AfterJoin : Disp := (initDisp rootNH).run c2Trace

def c2AfterDealloc : Disp := (initDisp rootNH).run (c2Trace ++ [.deallocS 2])

/-- Fixture for C4: two live function handler registrations. -/
def c4TwoRegs : Disp :=
  (initDisp rootNH).run [.forkS 5 [.funcRaw benignBody], .forkS 6 [.funcRaw benignBody]]

def c4CloseRes : Disp × Option Exc := c4TwoRegs.close none

/-- Fixture for C5: a compound registration whose first member completed on
the first event while the second member stays live. -/
def c5Base : Disp :=
  (initDisp rootNH).run [.forkS 2 [.genRaw genDoneOnFirst, .genRaw genWaits],
                         .sendS em2 (.app 7)]

def c5Res : Disp × Option Exc := c5Base.call em2 (.app 8)

/-- Fixture for C5: the spec scenario of a compound of an always raising
function member and a benign function member, fed two events. -/
def c5Good : Disp :=
  (initDisp rootNH).run [.forkS 2 [.funcRaw raisingBody, .funcRaw benignBody],
                         .sendS em2 (.app 7), .sendS em2 (.app 8)]

/-! ## Theorems -/

theorem ancestors_ne_nil (em : Emitter) : ancestors em ≠ [] := by
  cases em <;> simp [ancestors]

/-! ## Ghost log lemmas -/

theorem handlerWrapper_deliveries (d : Disp) (eid : Nat) (h : NH) (s : Nat) (ev : Event) :
    (d.handlerWrapper eid h s ev).1.deliveries = d.deliveries ++ [(some eid, ev)] := by
  simp only [Disp.handlerWrapper, Disp.cleanup]
  split <;> (try split) <;> (try split) <;> simp

theorem rootWrapper_deliveries (d : Disp) (ev : Event) :
    (d.rootWrapper ev).deliveries = d.deliveries ++ [(none, ev)] := by
  simp only [Disp.rootWrapper]
  split
  · split <;> simp
  · split
    · split <;> simp
    · simp

theorem handlerWrapper_sent (d : Disp) (eid : Nat) (h : NH) (s : Nat) (ev : Event) :
    (d.handlerWrapper eid h s ev).1.sent = d.sent := by
  simp only [Disp.handlerWrapper, Disp.cleanup]
  split <;> (try split) <;> (try split) <;> simp

theorem rootWrapper_sent (d : Disp) (ev : Event) :
    (d.rootWrapper ev).sent = d.sent := by
  simp only [Disp.rootWrapper]
  split
  · split <;> simp
  · split
    · split <;> simp
    · simp

/-- Every dispatch call records exactly the sender identity and the event
once in the ghost send log. -/
theorem call_sent (d : Disp) (em : Emitter) (ev : Event) :
    (d.call em ev).1.sent = d.sent ++ [(em.eid, ev)] := by
  simp only [Disp.call]
  split
  · split
    · rw [handlerWrapper_sent]
    · rfl
  · rw [rootWrapper_sent]

theorem firstReg_some {chain : List Nat} {t : List (Nat × NH)} {i : Nat}
    (hf : firstReg chain t = some i) : (tblGet t i).isSome = true := by
  induction chain with
  | nil => simp [firstReg] at hf
  | cons j rest ih =>
    by_cases hj : (tblGet t j).isSome = true
    · simp [firstReg, hj] at hf
      subst hf; exact hj
    · simp [firstReg, hj] at hf
      exact ih hf

theorem tblGet_eraseKey (t : List (Nat × NH)) (k : Nat) :
    tblGet (eraseKey t k) k = none := by
  induction t with
  | nil => rfl
  | cons p rest ih =>
    obtain ⟨i, h⟩ := p
    by_cases hik : i = k
    · simpa [eraseKey, List.filter_cons, hik] using ih
    · simpa [eraseKey, List.filter_cons, hik, tblGet] using ih

theorem chainIds_eq_map (em : Emitter) : chainIds em = (ancestors em).map Emitter.eid := by
  induction em with
  | root i => rfl
  | forkedE i p ih => simp [chainIds, ancestors, ih, Emitter.eid]

theorem firstReg_eq_find (chain : List Nat) (t : List (Nat × NH)) :
    firstReg chain t = chain.find? (fun i => (tblGet t i).isSome) := by
  induction chain with
  | nil => rfl
  | cons i rest ih =>
    by_cases hi : (tblGet t i).isSome = true
    · simp [firstReg, hi, List.find?_cons_of_pos]
    · simp only [Bool.not_eq_true] at hi
      simp [firstReg, hi, List.find?_cons_of_neg, ih]

/-! ## Claim theorems: routing, chain walk, scoped use, wait combinator -/

/-- C1: for every event sent through an emitter, the dispatcher walks the
ancestor chain starting at the sender and delivers the event to exactly one
handler: the registration keyed by the first ancestor identity holding a
live registration, or the root handler (`none` in the delivery log) when no
ancestor has one; the delivery log grows by exactly that one entry, so no
other handler receives the event; the selected target is the first element
of the chain whose identity has a live registration. -/
theorem c1_routing_first_match (d : Disp) (em : Emitter) (ev : Event) :
    (d.call em ev).1.deliveries
      = d.deliveries ++ [(firstReg (chainIds em) d.table, ev)] ∧
    firstReg (chainIds em) d.table
      = (chainIds em).find? (fun i => (tblGet d.table i).isSome) := by
  refine ⟨?_, firstReg_eq_find _ _⟩
  simp only [Disp.call]
  cases hfr : firstReg (chainIds em) d.table with
  | none => simp [hfr, rootWrapper_deliveries]
  | some eid =>
    have hmem := firstReg_some hfr
    cases ht : tblGet d.table eid with
    | none => rw [ht] at hmem; simp at hmem
    | some h => simp [hfr, ht, handlerWrapper_deliveries]

/-- C3: every scoped use of a forked emitter sends exactly one `Joined`
through the child emitter itself, on every exit path: with no cause on
normal completion and carrying the escaping error as cause otherwise; this
holds for the with statement form and for the synchronous call form. -/
theorem c3_scoped_joined (d : Disp) (child : Emitter) (acts : List Step)
    (bodyErr : Option Nat) :
    (scopedUse d child acts bodyErr).1.sent
      = (d.run acts).sent ++ [(child.eid, Event.sig .joined bodyErr)] ∧
    (forkedCallSync d child acts bodyErr).1.sent
      = (d.run acts).sent ++ [(child.eid, Event.sig .joined bodyErr)] := by
  constructor
  · simpa [scopedUse, joinExitEvent] using call_sent (d.run acts) child (.sig .joined bodyErr)
  · cases bodyErr <;> simpa [forkedCallSync] using call_sent (d.run acts) child _

/-- C6: the wait combinator settles on the first event that survives the
through filter and matches either condition — filtered events match nothing,
the cancel condition is tested before the until condition (cancelling with
the event as payload), and an until match completes with the event; in
particular feeding EventZ then EventY to a wait with until EventX and
cancel on EventY cancels carrying EventY without matching EventZ. -/
theorem c6_wait_characterization :
    (∀ (u c : Cond) (t : Event → Option Event) (evs : List Event),
      waitRun u c t evs =
        match evs.find? (waitDecider u c t) with
        | none => WaitOutcome.pending
        | some e =>
          if condMatches c e then WaitOutcome.cancelled e else WaitOutcome.completed e) ∧
    wait (.shapes [.appShape 0]) (.shapes [.appShape 1]) [.app 2, .app 1]
      = .cancelled (.app 1) := by
  constructor
  · intro u c t evs
    induction evs with
    | nil => rfl
    | cons e rest ih =>
      by_cases ht : t e = some e
      · by_cases hc : condMatches c e = true
        · have hd : waitDecider u c t e = true := by simp [waitDecider, ht, hc]
          simp [waitRun, ht, hc, List.find?_cons_of_pos, hd]
        · by_cases hu : condMatches u e = true
          · have hd : waitDecider u c t e = true := by simp [waitDecider, ht, hu]
            simp [waitRun, ht, hc, hu, List.find?_cons_of_pos, hd]
          · have hd : waitDecider u c t e = false := by simp [waitDecider, ht, hc, hu]
            simp [waitRun, ht, hc, hu, List.find?_cons_of_neg, hd, ih]
      · have hd : waitDecider u c t e = false := by simp [waitDecider, ht]
        simp [waitRun, ht, List.find?_cons_of_neg, hd, ih]
  · decide

/-- C10: the routing walk over an emitter whose parent chain is given by the
(finite, acyclic) `Emitter` structure terminates, yielding the sender
identity first and then each ancestor identity in child to parent order,
stopping at the first node without an emitter parent; when the ancestor ids
are pairwise distinct each identity is yielded exactly once. -/
theorem c10_chain_walk (em : Emitter) :
    chainIds em = (ancestors em).map Emitter.eid ∧
    (chainIds em).head? = some em.eid ∧
    (∃ i, (ancestors em).getLast? = some (.root i)) ∧
    (((ancestors em).map Emitter.eid).Nodup → (chainIds em).Nodup) := by
  refine ⟨chainIds_eq_map em, ?_, ?_, ?_⟩
  · cases em <;> rfl
  · induction em with
    | root i => exact ⟨i, rfl⟩
    | forkedE i p ih =>
      obtain ⟨j, hj⟩ := ih
      refine ⟨j, ?_⟩
      cases hp : ancestors p with
      | nil => exact absurd hp (ancestors_ne_nil p)
      | cons a l =>
        rw [hp] at hj
        show (Emitter.forkedE i p :: ancestors p).getLast? = _
        rw [hp, List.getLast?_cons_cons, hj]
  · intro h
    rw [chainIds_eq_map]
    exact h

/-- Applying the chain walk theorem at a concrete three level chain with
distinct identities. -/
theorem c10_chain_walk_witness :
    (chainIds (Emitter.forkedE 3 (Emitter.forkedE 2 (Emitter.root 1)))).Nodup :=
  (c10_chain_walk _).2.2.2 (by decide)

/-! ## Classification of exceptions escaping live single handlers -/

theorem funcH_send_live (f : FuncH) (ev : Event) (hl : f.fdone = false) :
    optJoined (f.send ev).2.1 = true ∧
    ((f.send ev).2.1 = none → (f.send ev).1.fdone = false) := by
  cases hb : f.body f.seen ev with
  | none => simp [FuncH.send, hl, hb, optJoined]
  | some e =>
    rcases e with ⟨k, c⟩ | _ | _ | _ | _ | t
    · cases k <;> simp [FuncH.send, hl, hb, optJoined, Exc.isJoined]
    all_goals simp [FuncH.send, hl, hb, optJoined, Exc.isJoined]

theorem genH_send_live (g : GenH) (ev : Event) (hl : g.closed = false) :
    optJoined (g.send ev).2.1 = true ∧
    ((g.send ev).2.1 = none → (g.send ev).1.closed = false) := by
  cases hb : g.prog.sendFn g.state ev with
  | yieldSt s => simp [GenH.send, hl, hb, optJoined]
  | retSt => simp [GenH.send, hl, hb, optJoined, Exc.isJoined]
  | raiseSt e =>
    rcases e with ⟨k, c⟩ | _ | _ | _ | _ | t <;>
      simp [GenH.send, hl, hb, optJoined, Exc.isJoined]

theorem funcH_throw_joined (f : FuncH) (exc : Exc) (hl : f.fdone = false)
    (he : exc.isJoined = true) : ((f.throw exc).2.1).isJoined = true := by
  simp [FuncH.throw, hl, he]

theorem genH_throw_joined (g : GenH) (exc : Exc) (hl : g.closed = false)
    (he : exc.isJoined = true) : ((g.throw exc).2.1).isJoined = true := by
  cases hb : g.prog.throwFn g.state exc with
  | retSt => simp [GenH.throw, hl, hb, he]
  | yieldSt s => simp [GenH.throw, hl, hb, he]
  | raiseSt e =>
    rcases e with ⟨k, c⟩ | _ | _ | _ | _ | t <;>
      simp [GenH.throw, hl, hb, Exc.isJoined]

theorem sh_send_live (h : SH) (ev : Event) (hl : h.done = false) :
    optJoined (h.send ev).2.1 = true ∧
    ((h.send ev).2.1 = none → (h.send ev).1.done = false) := by
  cases h with
  | funcH f => simpa [SH.send, SH.done] using funcH_send_live f ev (by simpa [SH.done] using hl)
  | genH g => simpa [SH.send, SH.done] using genH_send_live g ev (by simpa [SH.done] using hl)

theorem sh_throw_joined (h : SH) (exc : Exc) (hl : h.done = false)
    (he : exc.isJoined = true) : ((h.throw exc).2.1).isJoined = true := by
  cases h with
  | funcH f => simpa [SH.throw] using funcH_throw_joined f exc (by simpa [SH.done] using hl) he
  | genH g => simpa [SH.throw] using genH_throw_joined g exc (by simpa [SH.done] using hl) he

theorem isJoinedEvent_toExc {ev : Event} (h : ev.isJoinedEvent = true) :
    (ev.toExc).isJoined = true := by
  cases ev <;> simp_all [Event.isJoinedEvent, Event.toExc, Exc.isJoined]

/-- A live single handler registration never lets an exception escape the
handler wrapper: whatever the handler does, the caller of the dispatch sees
nothing. -/
theorem handlerWrapper_single_live (d : Disp) (eid : Nat) (h : NH) (s : Nat) (ev : Event)
    (hl : h.singleLive = true) : (d.handlerWrapper eid h s ev).2 = none := by
  cases h with
  | multi ms => simp [NH.singleLive] at hl
  | single h0 =>
    have hl0 : h0.done = false := by simpa [NH.singleLive] using hl
    have hs := sh_send_live h0 ev hl0
    simp only [Disp.handlerWrapper]
    cases hr : (h0.send ev).2.1 with
    | some e =>
      have he : e.isJoined = true := by rw [hr] at hs; simpa [optJoined] using hs.1
      simp [NH.send, hr, he]
    | none =>
      have hd : (h0.send ev).1.done = false := hs.2 hr
      by_cases hterm : (ev.isJoinedEvent && decide (s = eid)) = true
      · have hevj : ev.isJoinedEvent = true := by
          have h2 := hterm
          simp only [Bool.and_eq_true] at h2
          exact h2.1
        have hthrow :=
          sh_throw_joined (h0.send ev).1 ev.toExc hd (isJoinedEvent_toExc hevj)
        simp [NH.send, NH.throw, hr, hterm, hthrow]
      · simp [NH.send, hr, hterm]

/-- Delivering a `Joined` family event whose sender identity is the
registration key into a live single handler registration always ends in
cleanup: nothing propagates and the registration is gone afterwards. -/
theorem handlerWrapper_single_term (d : Disp) (eid : Nat) (h : NH) (ev : Event)
    (hl : h.singleLive = true) (hev : ev.isJoinedEvent = true) :
    (d.handlerWrapper eid h eid ev).2 = none ∧
    tblGet (d.handlerWrapper eid h eid ev).1.table eid = none := by
  cases h with
  | multi ms => simp [NH.singleLive] at hl
  | single h0 =>
    have hl0 : h0.done = false := by simpa [NH.singleLive] using hl
    have hs := sh_send_live h0 ev hl0
    simp only [Disp.handlerWrapper]
    cases hr : (h0.send ev).2.1 with
    | some e =>
      have he : e.isJoined = true := by rw [hr] at hs; simpa [optJoined] using hs.1
      simp [NH.send, hr, he, Disp.cleanup, tblGet_eraseKey]
    | none =>
      have hd : (h0.send ev).1.done = false := hs.2 hr
      have hterm : (ev.isJoinedEvent && decide (eid = eid)) = true := by simp [hev]
      have hthrow :=
        sh_throw_joined (h0.send ev).1 ev.toExc hd (isJoinedEvent_toExc hev)
      simp [NH.send, NH.throw, hr, hterm, hev, hthrow, Disp.cleanup, tblGet_eraseKey]

/-- The ancestor walk starts at the sender itself: when the sender id has a
live registration, routing selects it. -/
theorem firstReg_head (em : Emitter) (t : List (Nat × NH))
    (h : (tblGet t em.eid).isSome = true) : firstReg (chainIds em) t = some em.eid := by
  cases em <;> simp_all [chainIds, firstReg, Emitter.eid]

theorem call_single_term (d : Disp) (em : Emitter) (ev : Event) (h : NH)
    (ht : tblGet d.table em.eid = some h) (hl : h.singleLive = true)
    (hev : ev.isJoinedEvent = true) :
    (d.call em ev).2 = none ∧ tblGet (d.call em ev).1.table em.eid = none := by
  have hfr : firstReg (chainIds em) d.table = some em.eid :=
    firstReg_head em d.table (by rw [ht]; rfl)
  have hw := handlerWrapper_single_term
    { d with sent := d.sent ++ [(em.eid, ev)] } em.eid h ev hl hev
  simpa [Disp.call, hfr, ht] using hw

/-! ## Claim theorems: error containment, termination protocol, bootstrap -/

/-- C7 (amended): senders of events never observe handler failures through
either path: when no ancestor identity has a registration the dispatch call
returns normally whatever the root handler does (root failures are logged
and swallowed, never propagated to the sender), and when routing matches a
registration holding a live single handler the call likewise returns
normally whatever that handler does. -/
theorem c7_sender_isolation :
    (∀ (d : Disp) (em : Emitter) (ev : Event),
       firstReg (chainIds em) d.table = none → (d.call em ev).2 = none) ∧
    (∀ (d : Disp) (em : Emitter) (ev : Event) (eid : Nat) (h : NH),
       firstReg (chainIds em) d.table = some eid →
       tblGet d.table eid = some h → h.singleLive = true →
       (d.call em ev).2 = none) := by
  constructor
  · intro d em ev hfr
    simp [Disp.call, hfr]
  · intro d em ev eid h hfr ht hl
    simp [Disp.call, hfr, ht, handlerWrapper_single_live _ _ _ _ _ hl]

/-- Applying the sender isolation theorem at concrete inputs: an empty table
with a benign root, and the live single handler registration of emitter 2. -/
theorem c7_sender_isolation_witness :
    ((initDisp rootNH).call (.root 9) (.app 1)).2 = none ∧
    (c8base.call em2 (.app 1)).2 = none :=
  ⟨c7_sender_isolation.1 (initDisp rootNH) (.root 9) (.app 1) rfl,
   c7_sender_isolation.2 c8base em2 (.app 1) 2 c8handler rfl rfl rfl⟩

/-- C7 counterexample: the claim says a root handler exception propagates to
the sender when the chain has no registration; in the code both a raising
function root handler and a raising generator root handler are swallowed
(and logged at debug level) — the dispatch call returns normally. -/
theorem c7_root_swallows_counterexample :
    ((initDisp rootRaises).call (.root 9) (.app 1)).2 = none ∧
    ((initDisp rootRaises).call (.root 9) (.app 1)).1.logs
      = [(.debugL, .ignoringFuncExc)] ∧
    ((initDisp rootGenRaises).call (.root 9) (.app 1)).2 = none ∧
    ((initDisp rootGenRaises).call (.root 9) (.app 1)).1.logs
      = [(.debugL, .rootFailed)] := by
  refine ⟨rfl, rfl, rfl, rfl⟩

/-- C8 (amended): when a delivered event is a `Joined` family signal whose
sender identity equals the receiving registration key and the registration
holds a live single handler, the handler gets one chance to react via send
and the dispatcher then forces termination by re-raising the signal into the
handler as an error; in every case the registration is removed from the
routing table (never outliving its own ended scope) and nothing propagates
to the sender.  Mishandling by a generator is logged at debug level. -/
theorem c8_forced_termination (d : Disp) (em : Emitter) (k : JoinKind) (c : Option Nat)
    (h : NH) (ht : tblGet d.table em.eid = some h) (hl : h.singleLive = true) :
    (d.call em (.sig k c)).2 = none ∧
    tblGet (d.call em (.sig k c)).1.table em.eid = none :=
  call_single_term d em (.sig k c) h ht hl rfl

/-- Applying the forced termination theorem to the registration of a
generator handler that swallows every thrown signal. -/
theorem c8_forced_termination_witness :
    (c8base.call em2 (.sig .joined none)).2 = none ∧
    tblGet (c8base.call em2 (.sig .joined none)).1.table 2 = none :=
  c8_forced_termination c8base em2 .joined none c8handler rfl rfl

/-- C8 counterexample: the claim says the mishandling is logged as a
warning; in the code a generator handler that swallows its own `Joined` is
logged at debug level and no warning level record is ever produced. -/
theorem c8_debug_not_warning_counterexample :
    (c8base.call em2 (.sig .joined none)).1.logs.count
        ((LogLevel.debugL, LogMsg.swallowedJoin) : LogEntry) = 1 ∧
    ((c8base.call em2 (.sig .joined none)).1.logs.filter
        (fun l => l.1 == LogLevel.warningL)).length = 0 := by
  decide

/-- C9 (amended): when constructing a suspendable handler fails before its
first suspension, the exception propagates out of the registration call with
the dispatcher completely unchanged — no registration and no finalizer is
installed for the emitter identity and fork itself logs nothing. -/
theorem c9_bootstrap_no_registration (d : Disp) (childId : Nat) (raws : List RawH)
    (e : Exc) (hfree : (tblGet d.table childId).isSome = false)
    (herr : normalizeHandlers raws = .error e) :
    d.fork childId raws = (d, some e) := by
  simp [Disp.fork, hfree, herr]

/-- Applying the bootstrap theorem to a generator whose rewind raises. -/
theorem c9_bootstrap_no_registration_witness :
    (initDisp rootNH).fork 2 [.genRaw genBadBoot] = (initDisp rootNH, some (.otherExc 3)) :=
  c9_bootstrap_no_registration (initDisp rootNH) 2 [.genRaw genBadBoot]
    (.otherExc 3) rfl rfl

/-- C9 counterexample: the claim says the bootstrap failure is logged; in
the code fork leaves the log untouched (the exception merely propagates to
the caller of fork) while indeed installing no registration. -/
theorem c9_no_log_counterexample :
    ((initDisp rootNH).fork 2 [.genRaw genBadBoot]).1.logs.length = 0 ∧
    ((initDisp rootNH).fork 2 [.genRaw genBadBoot]).2 = some (.otherExc 3) ∧
    (tblGet ((initDisp rootNH).fork 2 [.genRaw genBadBoot]).1.table 2).isSome = false := by
  decide

/-- C2 at the failing input: a compound registration whose first member
completed on an earlier event receives the `Joined` of its own emitter; the
delivery trips the completed member assertion inside the compound send, so
cleanup is skipped and the registration and its finalizer survive their own
termination signal; the later deallocation then delivers a second
termination signal to the same registration — against the claimed at most
one termination signal with immediate removal. -/
theorem c2_double_termination_eval :
    c2AfterJoin.termDelivered.count 2 = 1 ∧
    (tblGet c2AfterJoin.table 2).isSome = true ∧
    c2AfterJoin.fins.contains 2 = true ∧
    c2AfterDealloc.termDelivered.count 2 = 2 := by
  decide

/-- C4 at the failing input: closing a dispatcher holding two live function
handler registrations delivers `DispatcherClosed` to the first registration
only and then raises RuntimeError from the size check of the dict iterator
(the first delivery removed its entry mid iteration); the second
registration and the root handler never receive the signal and the table is
not left empty.  Only a close over an already empty table reaches the root
handler. -/
theorem c4_close_runtime_error_eval :
    c4CloseRes.2 = some .runtimeError ∧
    c4CloseRes.1.deliveries = [(some 5, .sig .dispatcherClosed none)] ∧
    (tblGet c4CloseRes.1.table 6).isSome = true ∧
    ((initDisp rootNH).close none).2 = none ∧
    ((initDisp rootNH).close none).1.deliveries = [(none, .sig .dispatcherClosed none)] := by
  decide

/-- C5 at the failing input: once the first member of a compound handler has
completed on an earlier event, the next event sent to the compound is not
offered to every member — the completed member assertion raises, the still
live second member never observes the new event, and the assertion error
escapes to the sender.  The spec scenario with an always raising function
member does hold: the benign member observes both events. -/
theorem c5_member_assert_eval :
    c5Res.2 = some .assertionError ∧
    memberSeens c5Res.1 2 = [[.app 7], [.app 7]] ∧
    memberSeens c5Good 2 = [[.app 7, .app 8], [.app 7, .app 8]] := by
  decide

end Parastack
